import Mathlib

/-!
Verification of the streaming response aggregator of `src/agents/csv_agent.py`.

The aggregator `process_user_input` consumes a stream of response fragments.
Each fragment carries a text chunk, a metadata entry `"code"` (possibly
absent), an optional `role` attribute, a list of referenced file ids and the
thread handle of the response.  We embed a fragment as a structure whose
fields model exactly the pieces of a response the loop body reads.
-/

namespace CsvAgent

/-- One unit of the streamed response, as read by the loop body of
`process_user_input`: `response.metadata.get ("code", False)` is modelled by
`code : Option Bool` (absent entry ↦ `none`), `response.role` (absent or
`None` ↦ `none`), `str(response.content)` by `text`, the file ids of the
`StreamingFileReferenceContent` items of `response.items` in order by
`referenced_file_ids`, and `response.thread` by `thread`. -/
structure ResponseFragment where
  text : String
  code : Option Bool
  role : Option String
  referenced_file_ids : List String
  thread : Option String
deriving Repr, DecidableEq

/-- The local mutable state of `process_user_input`: `collected_responses`,
`file_ids`, `is_code`, `last_role` and the running `thread` variable. -/
structure AggState where
  collected_responses : String
  file_ids : List String
  is_code : Bool
  last_role : Option String
  thread : Option String
deriving Repr, DecidableEq

/-- Append a string to the `collected_responses` buffer
(`collected_responses += s`). -/
def appendText (st : AggState) (s : String) : AggState :=
  { st with collected_responses := st.collected_responses ++ s }

/-- The `current_is_code` branch of the loop body (lines 82-86): open a
fence if not already inside a code block, then append the content text. -/
def stepCode (st : AggState) (response : ResponseFragment) : AggState :=
  let st' := if st.is_code then st
    else { appendText st "\n\n```python\n" with is_code := true }
  appendText st' response.text

/-- The non-code branch of the loop body (lines 87-95): close an open
fence (clearing `last_role`), emit a role label when the role is present
and differs from `last_role`, then append the content text. -/
def stepProse (st : AggState) (response : ResponseFragment) : AggState :=
  let st' := if st.is_code then
      { appendText st "\n```\n" with is_code := false, last_role := none }
    else st
  let st'' := match response.role with
    | none => st'
    | some r =>
        if st'.last_role = some r then st'
        else { appendText st' ("\n**" ++ r ++ ":** ") with last_role := some r }
  appendText st'' response.text

/-- One iteration of the `async for` loop (lines 78-100): dispatch on the
`"code"` metadata flag (absent ↦ false), extend `file_ids` with the
fragment's referenced file ids, and take the fragment's thread. -/
def stepFragment (st : AggState) (response : ResponseFragment) : AggState :=
  let st' := if response.code.getD false then stepCode st response
    else stepProse st response
  { st' with file_ids := st'.file_ids ++ response.referenced_file_ids,
             thread := response.thread }

/-- The initial state of one aggregation call: empty buffer, empty file id
list, not in a code block, no last role, the caller's thread. -/
def initState (thread : Option String) : AggState :=
  { collected_responses := "", file_ids := [], is_code := false,
    last_role := none, thread := thread }

/-- The end-of-stream handling (lines 102-103): if the stream ended inside
a code block, append the closing fence. -/
def finalizeState (st : AggState) : AggState :=
  if st.is_code then appendText st "\n```\n" else st

/-- The pure aggregation core of `process_user_input`: fold the loop body
over the fragment list and close a dangling fence at the end. -/
def aggregate (frags : List ResponseFragment) (thread : Option String) : AggState :=
  finalizeState (List.foldl stepFragment (initState thread) frags)

/-- Outcome of `download_file_content` for one file id: either the file was
saved (and displayed) under the given path, or the exception was caught and
reported as the given message. -/
inductive DownloadReport where
  | saved (path : String)
  | failed (file_id : String) (msg : String)
deriving Repr, DecidableEq

/-- Lines 20-31: fetch one file id through the client; on success save the
content as `{file_id}.png`, on any exception catch it and report a message
naming the file id — the function itself never propagates the failure.
The remote call is abstracted as `fetch`. -/
def download_file_content (fetch : String → Except String String)
    (file_id : String) : DownloadReport :=
  match fetch file_id with
  | Except.ok _ => DownloadReport.saved (file_id ++ ".png")
  | Except.error e =>
      DownloadReport.failed file_id
        ("An error occurred while downloading file " ++ file_id ++ ": " ++ e)

/-- Lines 33-36: retrieve every collected file id in order, one by one
(the `if file_ids:` guard is the identity on the empty list). -/
def download_response_image (fetch : String → Except String String)
    (file_ids : List String) : List DownloadReport :=
  file_ids.map (download_file_content fetch)

/-- Lines 72-106: aggregate the stream, retrieve the referenced files, and
return the collected text together with the final thread.  The download
reports are returned alongside so the retrieval behaviour is observable. -/
def process_user_input (fetch : String → Except String String)
    (frags : List ResponseFragment) (thread : Option String) :
    (String × Option String) × List DownloadReport :=
  let st := aggregate frags thread
  let reports := download_response_image fetch st.file_ids
  ((st.collected_responses, st.thread), reports)

/-!
Token-level instrumentation: the same loop, but recording the pieces the
aggregator appends to the buffer (fence markers, role labels, content
chunks) as a list of tokens whose rendering is the buffer.  This makes the
fence structure of the produced text observable.
-/

/-- One piece appended to the buffer: an opening fence marker, a closing
fence marker, a role label, or a fragment's content text. -/
inductive OutTok where
  | openFence
  | closeFence
  | roleLabel (r : String)
  | chunk (s : String)
deriving Repr, DecidableEq

/-- The exact string the aggregator appends for each token. -/
def renderTok : OutTok → String
  | OutTok.openFence => "\n\n```python\n"
  | OutTok.closeFence => "\n```\n"
  | OutTok.roleLabel r => "\n**" ++ r ++ ":** "
  | OutTok.chunk s => s

/-- Concatenation of the rendered tokens. -/
def renderToks : List OutTok → String
  | [] => ""
  | t :: ts => renderTok t ++ renderToks ts

/-- The aggregation state with the buffer kept as a token list. -/
structure TokState where
  toks : List OutTok
  file_ids : List String
  is_code : Bool
  last_role : Option String
  thread : Option String
deriving Repr, DecidableEq

/-- Record one appended token. -/
def appendTok (t : TokState) (x : OutTok) : TokState :=
  { t with toks := t.toks ++ [x] }

/-- Token-level version of `stepCode`. -/
def stepCodeTok (t : TokState) (response : ResponseFragment) : TokState :=
  let t' := if t.is_code then t
    else { appendTok t OutTok.openFence with is_code := true }
  appendTok t' (OutTok.chunk response.text)

/-- Token-level version of `stepProse`. -/
def stepProseTok (t : TokState) (response : ResponseFragment) : TokState :=
  let t' := if t.is_code then
      { appendTok t OutTok.closeFence with is_code := false, last_role := none }
    else t
  let t'' := match response.role with
    | none => t'
    | some r =>
        if t'.last_role = some r then t'
        else { appendTok t' (OutTok.roleLabel r) with last_role := some r }
  appendTok t'' (OutTok.chunk response.text)

/-- Token-level version of `stepFragment`. -/
def stepFragmentTok (t : TokState) (response : ResponseFragment) : TokState :=
  let t' := if response.code.getD false then stepCodeTok t response
    else stepProseTok t response
  { t' with file_ids := t'.file_ids ++ response.referenced_file_ids,
            thread := response.thread }

/-- Token-level initial state. -/
def initTok (thread : Option String) : TokState :=
  { toks := [], file_ids := [], is_code := false, last_role := none,
    thread := thread }

/-- Token-level end-of-stream handling. -/
def finalizeTok (t : TokState) : TokState :=
  if t.is_code then appendTok t OutTok.closeFence else t

/-- Token-level state after the loop, before the end-of-stream handling. -/
def runTok (frags : List ResponseFragment) (thread : Option String) : TokState :=
  List.foldl stepFragmentTok (initTok thread) frags

/-- Token-level aggregation. -/
def aggregateTok (frags : List ResponseFragment) (thread : Option String) : TokState :=
  finalizeTok (runTok frags thread)

/-- Render a token state back to the string-level aggregation state. -/
def absState (t : TokState) : AggState :=
  { collected_responses := renderToks t.toks, file_ids := t.file_ids,
    is_code := t.is_code, last_role := t.last_role, thread := t.thread }

/-- Number of opening fence markers among the emitted tokens. -/
def countOpens (ts : List OutTok) : Nat :=
  List.countP (fun x => x = OutTok.openFence) ts

/-- Number of closing fence markers among the emitted tokens. -/
def countCloses (ts : List OutTok) : Nat :=
  List.countP (fun x => x = OutTok.closeFence) ts

/-- The fence-balance invariant of one state: the number of opening fences
exceeds the number of closing fences by one exactly while `is_code` is set,
and they are equal otherwise. -/
def FenceInv (t : TokState) : Prop :=
  countOpens t.toks = countCloses t.toks + (if t.is_code then 1 else 0)

/-- Modelled from the spec (section 4.1 step 4, the role-transition rule),
as the reference formatter for prose-only streams: each fragment's text is
appended in order, prefixed by a role label exactly when the fragment's
role is present and differs from the previously labeled role. -/
def specProseFormat : Option String → List ResponseFragment → String
  | _, [] => ""
  | last, f :: fs =>
      match f.role with
      | none => f.text ++ specProseFormat last fs
      | some r =>
          if last = some r then f.text ++ specProseFormat last fs
          else "\n**" ++ r ++ ":** " ++ f.text ++ specProseFormat (some r) fs

/-- Scenario A of the spec: two prose fragments from the assistant. -/
def scenarioA : List ResponseFragment :=
  [{ text := "Hello ", code := none, role := some "assistant",
     referenced_file_ids := [], thread := none },
   { text := "world", code := none, role := some "assistant",
     referenced_file_ids := [], thread := none }]

/-- Scenario B of the spec: two code fragments, then a prose fragment. -/
def scenarioB : List ResponseFragment :=
  [{ text := "print(1)", code := some true, role := none,
     referenced_file_ids := [], thread := none },
   { text := "\n", code := some true, role := none,
     referenced_file_ids := [], thread := none },
   { text := "done", code := none, role := some "assistant",
     referenced_file_ids := [], thread := none }]

/-- Scenario C of the spec: two prose fragments carrying file references
with a repeated identifier. -/
def scenarioC : List ResponseFragment :=
  [{ text := "see chart", code := none, role := some "assistant",
     referenced_file_ids := ["f1"], thread := none },
   { text := " and table", code := none, role := some "assistant",
     referenced_file_ids := ["f2", "f1"], thread := none }]

/-- A state with a remembered last role and no open code block, used to
exercise the code-entering step. -/
def stateWithRole : AggState :=
  { collected_responses := "prior", file_ids := [], is_code := false,
    last_role := some "assistant", thread := none }

/-- A code fragment carrying a role value, used to exercise the code
branch. -/
def codeFragment : ResponseFragment :=
  { text := "x = 1", code := some true, role := some "user",
    referenced_file_ids := [], thread := none }

/-- A fragment with every optional field absent. -/
def bareFragment : ResponseFragment :=
  { text := "plain", code := none, role := none,
    referenced_file_ids := [], thread := none }

/-- A retrieval oracle that fails on the identifier `"bad"` and succeeds on
every other identifier. -/
def fetchBad : String → Except String String :=
  fun s => if s = "bad" then Except.error "boom" else Except.ok "bytes"

/-- A retrieval oracle that succeeds on every identifier. -/
def fetchOk : String → Except String String :=
  fun _ => Except.ok "bytes"

theorem renderToks_append (ts us : List OutTok) :
    renderToks (ts ++ us) = renderToks ts ++ renderToks us := by
  induction ts with
  | nil => simp [renderToks]
  | cons t ts ih => simp [renderToks, ih, String.append_assoc]

theorem absState_appendTok (t : TokState) (x : OutTok) :
    absState (appendTok t x) = appendText (absState t) (renderTok x) := by
  simp [absState, appendTok, appendText, renderToks_append, renderToks]

theorem stepCode_absState (t : TokState) (f : ResponseFragment) :
    stepCode (absState t) f = absState (stepCodeTok t f) := by
  by_cases h : t.is_code <;>
    simp [stepCode, stepCodeTok, absState, appendTok, appendText, h,
      renderToks_append, renderToks, renderTok, String.append_assoc]

theorem stepProse_absState (t : TokState) (f : ResponseFragment) :
    stepProse (absState t) f = absState (stepProseTok t f) := by
  cases hr : f.role with
  | none =>
      by_cases h : t.is_code <;>
        simp [stepProse, stepProseTok, absState, appendTok, appendText, h, hr,
          renderToks_append, renderToks, renderTok, String.append_assoc]
  | some r =>
      by_cases h : t.is_code
      · simp [stepProse, stepProseTok, absState, appendTok, appendText, h, hr,
          renderToks_append, renderToks, renderTok, String.append_assoc]
      · by_cases hlr : t.last_role = some r <;>
          simp [stepProse, stepProseTok, absState, appendTok, appendText, h,
            hr, hlr, renderToks_append, renderToks, renderTok,
            String.append_assoc]

theorem stepFragment_absState (t : TokState) (f : ResponseFragment) :
    stepFragment (absState t) f = absState (stepFragmentTok t f) := by
  by_cases h : f.code.getD false <;>
    simp only [stepFragment, stepFragmentTok, h, Bool.false_eq_true,
      if_true, if_false, ite_true, ite_false, stepCode_absState,
      stepProse_absState] <;>
    simp [absState]

theorem foldl_absState (frags : List ResponseFragment) (t : TokState) :
    List.foldl stepFragment (absState t) frags =
      absState (List.foldl stepFragmentTok t frags) := by
  induction frags generalizing t with
  | nil => rfl
  | cons f fs ih => simp [List.foldl, stepFragment_absState, ih]

theorem finalize_absState (t : TokState) :
    finalizeState (absState t) = absState (finalizeTok t) := by
  by_cases h : t.is_code <;>
    simp [finalizeState, finalizeTok, absState, h, appendTok,
      appendText, renderToks_append, renderToks, renderTok]

/-- The string-level aggregation is the rendering of the token-level one. -/
theorem aggregate_eq_absState (frags : List ResponseFragment)
    (thread : Option String) :
    aggregate frags thread = absState (aggregateTok frags thread) := by
  have h0 : initState thread = absState (initTok thread) := rfl
  simp [aggregate, aggregateTok, runTok, h0, foldl_absState, finalize_absState]

theorem countOpens_append (ts us : List OutTok) :
    countOpens (ts ++ us) = countOpens ts + countOpens us := by
  simp [countOpens, List.countP_append]

theorem countCloses_append (ts us : List OutTok) :
    countCloses (ts ++ us) = countCloses ts + countCloses us := by
  simp [countCloses, List.countP_append]

theorem fenceInv_step (t : TokState) (f : ResponseFragment)
    (h : FenceInv t) : FenceInv (stepFragmentTok t f) := by
  by_cases hc : f.code.getD false
  · by_cases hic : t.is_code <;>
      simp_all [FenceInv, stepFragmentTok, stepCodeTok, appendTok, hc, hic,
        countOpens_append, countCloses_append, countOpens, countCloses,
        List.countP_cons]
  · by_cases hic : t.is_code
    · cases hr : f.role with
      | none =>
          simp_all [FenceInv, stepFragmentTok, stepProseTok, appendTok, hc,
            hic, hr, countOpens_append, countCloses_append, countOpens,
            countCloses, List.countP_cons]
      | some r =>
          simp_all [FenceInv, stepFragmentTok, stepProseTok, appendTok, hc,
            hic, hr, countOpens_append, countCloses_append, countOpens,
            countCloses, List.countP_cons]
    · cases hr : f.role with
      | none =>
          simp_all [FenceInv, stepFragmentTok, stepProseTok, appendTok, hc,
            hic, hr, countOpens_append, countCloses_append, countOpens,
            countCloses, List.countP_cons]
      | some r =>
          by_cases hlr : t.last_role = some r <;>
            simp_all [FenceInv, stepFragmentTok, stepProseTok, appendTok, hc,
              hic, hr, hlr, countOpens_append, countCloses_append, countOpens,
              countCloses, List.countP_cons]

theorem fenceInv_foldl (frags : List ResponseFragment) (t : TokState)
    (h : FenceInv t) :
    FenceInv (List.foldl stepFragmentTok t frags) := by
  induction frags generalizing t with
  | nil => exact h
  | cons f fs ih => exact ih _ (fenceInv_step t f h)

theorem fenceInv_run (frags : List ResponseFragment) (thread : Option String) :
    FenceInv (runTok frags thread) := by
  apply fenceInv_foldl
  simp [FenceInv, initTok, countOpens, countCloses]

/-- C1: the aggregation closes every code fence it opens.  The buffer of
`aggregate` is the rendering of the emitted token sequence; after any finite
fragment prefix the `is_code` flag is true exactly when the emitted tokens
hold one unclosed opening fence; the end-of-stream handling appends a
closing fence token exactly when the flag is still true; and the returned
token sequence always has as many closing fences as opening fences. -/
theorem C1_every_opened_fence_closed (frags : List ResponseFragment)
    (thread : Option String) :
    (aggregate frags thread).collected_responses =
        renderToks (aggregateTok frags thread).toks
    ∧ ((runTok frags thread).is_code = true ↔
        countOpens (runTok frags thread).toks =
          countCloses (runTok frags thread).toks + 1)
    ∧ (aggregateTok frags thread).toks =
        (runTok frags thread).toks ++
          (if (runTok frags thread).is_code then [OutTok.closeFence] else [])
    ∧ countOpens (aggregateTok frags thread).toks =
        countCloses (aggregateTok frags thread).toks := by
  have hinv := fenceInv_run frags thread
  refine ⟨?_, ⟨?_, ?_⟩, ?_, ?_⟩
  · rw [aggregate_eq_absState]; rfl
  · intro h
    simpa [FenceInv, h] using hinv
  · intro h
    by_cases hc : (runTok frags thread).is_code
    · exact hc
    · exfalso
      simp [FenceInv, hc] at hinv
      omega
  · by_cases hc : (runTok frags thread).is_code <;>
      simp [aggregateTok, finalizeTok, appendTok, hc]
  · by_cases hc : (runTok frags thread).is_code <;>
      simp_all [FenceInv, aggregateTok, finalizeTok, appendTok, hc,
        countOpens_append, countCloses_append, countOpens, countCloses,
        List.countP_cons]

theorem stepCode_file_ids (st : AggState) (f : ResponseFragment) :
    (stepCode st f).file_ids = st.file_ids := by
  by_cases h : st.is_code <;> simp [stepCode, appendText, h]

theorem stepProse_file_ids (st : AggState) (f : ResponseFragment) :
    (stepProse st f).file_ids = st.file_ids := by
  cases hr : f.role with
  | none => by_cases h : st.is_code <;> simp [stepProse, appendText, h, hr]
  | some r =>
      by_cases h : st.is_code <;>
        simp [stepProse, appendText, h, hr] <;>
        split <;> simp [appendText]

theorem stepFragment_file_ids (st : AggState) (f : ResponseFragment) :
    (stepFragment st f).file_ids = st.file_ids ++ f.referenced_file_ids := by
  by_cases h : f.code.getD false <;>
    simp [stepFragment, h, stepCode_file_ids, stepProse_file_ids]

theorem foldl_file_ids (frags : List ResponseFragment) (st : AggState) :
    (List.foldl stepFragment st frags).file_ids =
      st.file_ids ++ (frags.map (fun f => f.referenced_file_ids)).flatten := by
  induction frags generalizing st with
  | nil => simp
  | cons f fs ih =>
      simp [List.foldl, ih, stepFragment_file_ids, List.append_assoc]

theorem finalizeState_file_ids (st : AggState) :
    (finalizeState st).file_ids = st.file_ids := by
  by_cases h : st.is_code <;> simp [finalizeState, appendText, h]

/-- C2: the file id list produced by the aggregation is the concatenation,
in arrival order and with duplicates preserved, of the referenced file ids
of the fragments, whatever their code or prose status. -/
theorem C2_file_ids_in_arrival_order (frags : List ResponseFragment)
    (thread : Option String) :
    (aggregate frags thread).file_ids =
      (frags.map (fun f => f.referenced_file_ids)).flatten := by
  simp [aggregate, finalizeState_file_ids, foldl_file_ids, initState, runTok]

theorem prose_foldl (frags : List ResponseFragment) :
    ∀ st : AggState,
      (∀ f ∈ frags, f.code.getD false = false ∧ f.referenced_file_ids = []) →
      st.is_code = false →
      (List.foldl stepFragment st frags).collected_responses =
          st.collected_responses ++ specProseFormat st.last_role frags
      ∧ (List.foldl stepFragment st frags).file_ids = st.file_ids
      ∧ (List.foldl stepFragment st frags).is_code = false := by
  induction frags with
  | nil => intro st h hic; simp [specProseFormat, hic]
  | cons f fs ih =>
      intro st h hic
      have hf := h f (List.mem_cons_self f fs)
      have hfs : ∀ g ∈ fs, g.code.getD false = false ∧ g.referenced_file_ids = [] :=
        fun g hg => h g (List.mem_cons_of_mem f hg)
      obtain ⟨hc, hrefs⟩ := hf
      cases hr : f.role with
      | none =>
          have hstep : stepFragment st f =
              { appendText st f.text with thread := f.thread } := by
            simp [stepFragment, stepProse, appendText, hc, hic, hr, hrefs]
          rw [List.foldl_cons, hstep]
          obtain ⟨h1, h2, h3⟩ :=
            ih { appendText st f.text with thread := f.thread } hfs hic
          refine ⟨?_, by simpa [appendText] using h2, h3⟩
          simp only [h1]
          simp [appendText, specProseFormat, hr, String.append_assoc]
      | some r =>
          by_cases hlr : st.last_role = some r
          · have hstep : stepFragment st f =
                { appendText st f.text with thread := f.thread } := by
              simp [stepFragment, stepProse, appendText, hc, hic, hr, hlr, hrefs]
            rw [List.foldl_cons, hstep]
            obtain ⟨h1, h2, h3⟩ :=
              ih { appendText st f.text with thread := f.thread } hfs hic
            refine ⟨?_, by simpa [appendText] using h2, h3⟩
            simp only [h1]
            simp [appendText, specProseFormat, hr, hlr, String.append_assoc]
          · have hstep : stepFragment st f =
                { appendText (appendText st ("\n**" ++ r ++ ":** ")) f.text with
                    last_role := some r, thread := f.thread } := by
              simp [stepFragment, stepProse, appendText, hc, hic, hr, hlr, hrefs,
                String.append_assoc]
            rw [List.foldl_cons, hstep]
            obtain ⟨h1, h2, h3⟩ :=
              ih { appendText (appendText st ("\n**" ++ r ++ ":** ")) f.text with
                     last_role := some r, thread := f.thread } hfs hic
            refine ⟨?_, by simpa [appendText] using h2, h3⟩
            simp only [h1]
            simp [appendText, specProseFormat, hr, hlr, String.append_assoc]

/-- C3: on a stream with no code fragments and no file references, the
aggregation yields no file ids and its formatted text is exactly the
reference concatenation of the spec's role-transition rule: each fragment's
text in order, prefixed by a role label exactly when its role is present
and differs from the previously labeled role. -/
theorem C3_prose_only_refines_spec (frags : List ResponseFragment)
    (thread : Option String)
    (h : ∀ f ∈ frags, f.code.getD false = false ∧ f.referenced_file_ids = []) :
    (aggregate frags thread).collected_responses = specProseFormat none frags
    ∧ (aggregate frags thread).file_ids = [] := by
  obtain ⟨h1, h2, h3⟩ := prose_foldl frags (initState thread) h rfl
  have hfin : aggregate frags thread =
      List.foldl stepFragment (initState thread) frags := by
    simp [aggregate, finalizeState, h3]
  constructor
  · rw [hfin, h1]; simp [initState]
  · rw [hfin, h2]; rfl

/-- Witness for C3 at Scenario A of the spec. -/
theorem C3_prose_only_refines_spec_witness :
    (∀ f ∈ scenarioA, f.code.getD false = false ∧ f.referenced_file_ids = [])
    ∧ ((aggregate scenarioA none).collected_responses =
          specProseFormat none scenarioA
       ∧ (aggregate scenarioA none).file_ids = []) :=
  ⟨by decide, C3_prose_only_refines_spec scenarioA none (by decide)⟩

/-- C4: on Scenario B of the spec — code fragment `print(1)`, code fragment
`"\n"`, then prose fragment `done` from the assistant — the aggregation
produces exactly the opening fence, the code text, the closing fence and a
fresh role label before `done`, and no file ids. -/
theorem C4_scenarioB_exact :
    (aggregate scenarioB none).collected_responses =
      "\n\n```python\nprint(1)\n\n```\n\n**assistant:** done"
    ∧ (aggregate scenarioB none).file_ids = [] := by
  constructor <;> rfl

/-- C5 counterexample: entering a code block from a state that remembers a
last role does not clear `last_role` — it stays `some "assistant"`, so the
claim that the step sets it to `none` fails at this input. -/
theorem C5_counterexample_last_role_kept :
    (stepFragment stateWithRole codeFragment).last_role ≠ none := by decide

/-- C5 (amended): processing a code fragment from outside a code block
appends the opening fence marker followed by the fragment text, sets
`is_code`, and leaves `last_role` unchanged (it is cleared only later, when
the code block is closed). -/
theorem C5_amended_code_entry (st : AggState) (f : ResponseFragment)
    (hic : st.is_code = false) (hc : f.code.getD false = true) :
    (stepFragment st f).collected_responses =
        st.collected_responses ++ "\n\n```python\n" ++ f.text
    ∧ (stepFragment st f).is_code = true
    ∧ (stepFragment st f).last_role = st.last_role := by
  simp [stepFragment, stepCode, appendText, hc, hic, String.append_assoc]

/-- Witness for the amended C5 at a state remembering a last role. -/
theorem C5_amended_code_entry_witness :
    (stateWithRole.is_code = false ∧ codeFragment.code.getD false = true)
    ∧ ((stepFragment stateWithRole codeFragment).collected_responses =
          stateWithRole.collected_responses ++ "\n\n```python\n" ++
            codeFragment.text
       ∧ (stepFragment stateWithRole codeFragment).is_code = true
       ∧ (stepFragment stateWithRole codeFragment).last_role =
          stateWithRole.last_role) :=
  ⟨⟨rfl, rfl⟩, C5_amended_code_entry stateWithRole codeFragment rfl rfl⟩

/-- C6 counterexample: on Scenario C of the spec the aggregation yields
`["f1", "f2", "f1"]`, in which `f1` appears twice — the returned list is
not deduplicated. -/
theorem C6_counterexample_duplicate_kept :
    (aggregate scenarioC none).file_ids = ["f1", "f2", "f1"]
    ∧ ¬ (aggregate scenarioC none).file_ids.Nodup := by
  constructor
  · rfl
  · decide

/-- C6 (amended): the aggregation deduplicates nothing — the returned list
is exactly the referenced identifiers in arrival order, so each identifier
appears as many times as it occurs across the stream, at the positions of
its occurrences. -/
theorem C6_amended_all_occurrences_kept (frags : List ResponseFragment)
    (thread : Option String) (s : String) :
    (aggregate frags thread).file_ids =
        (frags.map (fun f => f.referenced_file_ids)).flatten
    ∧ ((aggregate frags thread).file_ids).count s =
        ((frags.map (fun f => f.referenced_file_ids)).flatten).count s := by
  have h : (aggregate frags thread).file_ids =
      (frags.map (fun f => f.referenced_file_ids)).flatten := by
    simp [aggregate, finalizeState_file_ids, foldl_file_ids, initState]
  exact ⟨h, by rw [h]⟩

/-- C7: a code fragment never reads its role and never emits a role label:
the step is invariant under any change of the fragment's role value, and
the only text it appends is the opening fence (when entering a code block)
followed by the fragment text — so two consecutive code fragments have
nothing inserted between their texts, whatever their roles. -/
theorem C7_code_fragments_never_labeled (st : AggState)
    (f : ResponseFragment) (r : Option String)
    (hc : f.code.getD false = true) :
    stepFragment st { f with role := r } = stepFragment st f
    ∧ (stepFragment st f).collected_responses =
        st.collected_responses ++
          (if st.is_code then "" else "\n\n```python\n") ++ f.text := by
  constructor
  · by_cases h : st.is_code <;> simp [stepFragment, stepCode, appendText, hc, h]
  · by_cases h : st.is_code <;>
      simp [stepFragment, stepCode, appendText, hc, h, String.append_assoc]

/-- Witness for C7 at a code fragment carrying a differing role value. -/
theorem C7_code_fragments_never_labeled_witness :
    codeFragment.code.getD false = true
    ∧ (stepFragment stateWithRole { codeFragment with role := none } =
          stepFragment stateWithRole codeFragment
       ∧ (stepFragment stateWithRole codeFragment).collected_responses =
          stateWithRole.collected_responses ++
            (if stateWithRole.is_code then "" else "\n\n```python\n") ++
              codeFragment.text) :=
  ⟨rfl, C7_code_fragments_never_labeled stateWithRole codeFragment none rfl⟩

/-- C8: the aggregator is a total function and absent fields degrade to
defaults: a fragment with no `"code"` metadata entry is processed exactly
like one whose entry is false (prose), and a fragment with no role emits no
label — the step just closes a dangling fence if needed and appends the
text. -/
theorem C8_absent_fields_default (st : AggState) (f : ResponseFragment)
    (hcode : f.code = none) (hrole : f.role = none) :
    stepFragment st f = stepFragment st { f with code := some false }
    ∧ (stepFragment st f).collected_responses =
        st.collected_responses ++
          (if st.is_code then "\n```\n" else "") ++ f.text
    ∧ (stepFragment st f).is_code = false := by
  refine ⟨?_, ?_, ?_⟩
  · by_cases h : st.is_code <;>
      simp [stepFragment, stepProse, appendText, hcode, h]
  · by_cases h : st.is_code <;>
      simp [stepFragment, stepProse, appendText, hcode, hrole, h,
        String.append_assoc]
  · by_cases h : st.is_code <;>
      simp [stepFragment, stepProse, appendText, hcode, hrole, h]

/-- Witness for C8 at a fragment with every optional field absent. -/
theorem C8_absent_fields_default_witness :
    (bareFragment.code = none ∧ bareFragment.role = none)
    ∧ (stepFragment stateWithRole bareFragment =
          stepFragment stateWithRole { bareFragment with code := some false }
       ∧ (stepFragment stateWithRole bareFragment).collected_responses =
          stateWithRole.collected_responses ++
            (if stateWithRole.is_code then "\n```\n" else "") ++
              bareFragment.text
       ∧ (stepFragment stateWithRole bareFragment).is_code = false) :=
  ⟨⟨rfl, rfl⟩, C8_absent_fields_default stateWithRole bareFragment rfl rfl⟩

/-- C9: file-retrieval failures are isolated: the aggregation result
returned by `process_user_input` does not depend on the retrieval oracle at
all, and a failing identifier in the middle of the collected list yields
its own failure report while every identifier before and after it is still
processed. -/
theorem C9_retrieval_failures_isolated
    (fetch fetch2 : String → Except String String)
    (frags : List ResponseFragment) (thread : Option String)
    (ids1 ids2 : List String) (bad e : String)
    (hbad : fetch bad = Except.error e) :
    (process_user_input fetch frags thread).1 =
        (process_user_input fetch2 frags thread).1
    ∧ download_response_image fetch (ids1 ++ bad :: ids2) =
        download_response_image fetch ids1 ++
          DownloadReport.failed bad
              ("An error occurred while downloading file " ++ bad ++ ": " ++ e)
            :: download_response_image fetch ids2
    ∧ (download_response_image fetch (ids1 ++ bad :: ids2)).length =
        ids1.length + 1 + ids2.length := by
  refine ⟨rfl, ?_, ?_⟩
  · simp [download_response_image, download_file_content, hbad]
  · simp [download_response_image]
    omega

/-- Witness for C9 with an oracle failing on the middle identifier. -/
theorem C9_retrieval_failures_isolated_witness :
    fetchBad "bad" = Except.error "boom"
    ∧ ((process_user_input fetchBad scenarioC none).1 =
          (process_user_input fetchOk scenarioC none).1
       ∧ download_response_image fetchBad (["f1"] ++ "bad" :: ["f2"]) =
          download_response_image fetchBad ["f1"] ++
            DownloadReport.failed "bad"
                ("An error occurred while downloading file " ++ "bad" ++ ": "
                  ++ "boom")
              :: download_response_image fetchBad ["f2"]
       ∧ (download_response_image fetchBad (["f1"] ++ "bad" :: ["f2"])).length =
          (["f1"] : List String).length + 1 + (["f2"] : List String).length) :=
  ⟨rfl, C9_retrieval_failures_isolated fetchBad fetchOk scenarioC none
    ["f1"] ["f2"] "bad" "boom" rfl⟩

/-- C10: on the empty stream the aggregation returns the empty string, no
download reports, no file ids, and the caller's thread unchanged. -/
theorem C10_empty_stream (fetch : String → Except String String)
    (thread : Option String) :
    process_user_input fetch [] thread = (("", thread), [])
    ∧ (aggregate [] thread).file_ids = [] := by
  constructor <;> rfl

end CsvAgent
